import Mathlib

/-!
Verification development for the sticky-note MCP server.

The Python source is shallowly embedded: JSON values decoded by
`json.loads` become the inductive `JVal` (with `JVal.null` standing for
Python `None`), dictionaries become association lists, and Python's
dict-access, truthiness and `or` idioms become the helpers below.
Filesystem discovery (globbing, mtimes) is external I/O: providers are
modelled as functions of the already-discovered candidate list, in the
order the source would visit them.
-/

namespace StickyNoteMCP

/-- A decoded JSON value; `null` doubles as Python `None`. -/
inductive JVal where
  | null : JVal
  | bool : Bool → JVal
  | num : Int → JVal
  | str : String → JVal
  | arr : List JVal → JVal
  | obj : List (String × JVal) → JVal

/-- A Python dict decoded from JSON: an association list (first key wins). -/
abbrev PyObj := List (String × JVal)

/-- Raw key lookup in a dict (`k in d` / `d[k]`): `none` when the key is absent. -/
def lookupKey (o : PyObj) (k : String) : Option JVal :=
  match o with
  | [] => none
  | (k', v) :: rest => if k' = k then some v else lookupKey rest k

/-- `d.get(k)`: an absent key yields Python `None`, i.e. `JVal.null`. -/
def pyGet (o : PyObj) (k : String) : JVal :=
  (lookupKey o k).getD .null

/-- `d.get(k, default)`: the default is used only when the key is absent
(a stored JSON `null` is returned as `None`). -/
def pyGetD (o : PyObj) (k : String) (default : JVal) : JVal :=
  (lookupKey o k).getD default

/-- Python truthiness of a JSON-decoded value. -/
def JVal.truthy : JVal → Bool
  | .null => false
  | .bool b => b
  | .num n => n != 0
  | .str s => s != ""
  | .arr xs => !xs.isEmpty
  | .obj fs => !fs.isEmpty

/-- Python `a or b` on JSON-decoded values. -/
def pyOr (a b : JVal) : JVal := if a.truthy then a else b

/-- Coerce a value used as a dict (`x or {}` followed by `.get`).  A truthy
non-dict here would raise `AttributeError` in Python; such records never
yield a context, and the coercion to the empty dict keeps the model total. -/
def toObj : JVal → PyObj
  | .obj fs => fs
  | _ => []

/-- Coerce a value iterated as a list.  Iterating a string or a dict visits
no dict-shaped elements, so for the provider loops below the empty list is
faithful; a number would raise in Python (such records never yield entries). -/
def toArr : JVal → List JVal
  | .arr xs => xs
  | _ => []

/-- Python `str()` of a JSON-decoded value (`repr` for nested elements). -/
def pyRepr : JVal → String
  | .null => "None"
  | .bool true => "True"
  | .bool false => "False"
  | .num n => toString n
  | .str s => "\x27" ++ s ++ "\x27"
  | .arr xs => "[" ++ String.intercalate ", " (xs.attach.map fun x => pyRepr x.1) ++ "]"
  | .obj fs => "\x7b" ++ String.intercalate ", "
      (fs.attach.map fun kv => "\x27" ++ kv.1.1 ++ "\x27: " ++ pyRepr kv.1.2) ++ "\x7d"
decreasing_by
  all_goals simp_wf
  · have h := List.sizeOf_lt_of_mem x.2
    omega
  · have h := List.sizeOf_lt_of_mem kv.2
    have h2 : sizeOf kv.1.2 < sizeOf kv.1 := by
      obtain ⟨⟨k, v⟩, hm⟩ := kv
      simp
    omega

/-- Python `==` between a JSON-decoded value and a string literal. -/
def jeqStr (v : JVal) (s : String) : Bool :=
  match v with
  | .str t => t == s
  | _ => false

/-- Python `str()`: strings render without quotes, containers via `repr`. -/
def pyStr : JVal → String
  | .str s => s
  | v => pyRepr v

/-- A `datetime`: the civil fields are encoded as microseconds since the
epoch read as if they were UTC, and `utcOffsetMinutes` is the attached
`tzinfo` (`none` for a naive datetime).  The instant an aware datetime
denotes is `fieldMicros - offset`. -/
structure PyDT where
  fieldMicros : Int
  utcOffsetMinutes : Option Int
deriving Repr, DecidableEq

/-- Days since 1970-01-01 for a civil date (standard civil-calendar formula,
as used by `datetime`'s proleptic Gregorian calendar). -/
def daysFromCivil (y m d : Int) : Int :=
  let y' := if m ≤ 2 then y - 1 else y
  let era := (if y' ≥ 0 then y' else y' - 399) / 400
  let yoe := y' - era * 400
  let mp := (m + 9) % 12
  let doy := (153 * mp + 2) / 5 + d - 1
  let doe := yoe * 365 + yoe / 4 - yoe / 100 + doy
  era * 146097 + doe - 719468

/-- Microsecond encoding of civil datetime fields. -/
def civilMicros (y mo d h mi s us : Int) : Int :=
  ((daysFromCivil y mo d) * 86400 + h * 3600 + mi * 60 + s) * 1000000 + us

def digitVal (c : Char) : Option Nat :=
  if c.isDigit then some (c.toNat - '0'.toNat) else none

/-- Decimal value of a run of digit characters (`none` on a non-digit). -/
def digitsToNat (cs : List Char) : Option Nat :=
  cs.foldl
    (fun acc c =>
      match acc, digitVal c with
      | some a, some d => some (a * 10 + d)
      | _, _ => none)
    (some 0)

/-- Trailing `±HH:MM` UTC-offset suffix of an ISO string; empty means naive. -/
def parseOffset (cs : List Char) : Option (Option Int) :=
  match cs with
  | [] => some none
  | [sign, h1, h2, ':', m1, m2] =>
      if sign = '+' ∨ sign = '-' then
        match digitsToNat [h1, h2], digitsToNat [m1, m2] with
        | some h, some mi =>
            some (some (if sign = '-' then -(h * 60 + mi : Int) else (h * 60 + mi : Int)))
        | _, _ => none
      else none
  | _ => none

/-- Optional `.ffffff` fraction (1–6 digits) followed by an optional offset. -/
def parseFracOffset (cs : List Char) : Option (Nat × Option Int) :=
  match cs with
  | '.' :: rest =>
      let digs := rest.takeWhile Char.isDigit
      let rem := rest.drop digs.length
      if digs.length = 0 ∨ digs.length > 6 then none
      else
        match digitsToNat digs, parseOffset rem with
        | some f, some off => some (f * 10 ^ (6 - digs.length), off)
        | _, _ => none
  | _ =>
      match parseOffset cs with
      | some off => some (0, off)
      | none => none

/-- `datetime.fromisoformat` on the formats the logs contain:
`YYYY-MM-DD[{T,space}HH:MM:SS[.ffffff]][±HH:MM]` (field-range validation and
rarer ISO forms are not modelled; no theorem below depends on them). -/
def fromisoformat (s : String) : Option PyDT :=
  match s.data with
  | y1 :: y2 :: y3 :: y4 :: '-' :: mo1 :: mo2 :: '-' :: d1 :: d2 :: rest =>
      match digitsToNat [y1, y2, y3, y4], digitsToNat [mo1, mo2], digitsToNat [d1, d2] with
      | some y, some mo, some d =>
          match rest with
          | [] => some ⟨civilMicros y mo d 0 0 0 0, none⟩
          | sep :: timeRest =>
              if sep = 'T' ∨ sep = ' ' then
                match timeRest with
                | h1 :: h2 :: ':' :: mi1 :: mi2 :: ':' :: s1 :: s2 :: rest2 =>
                    match digitsToNat [h1, h2], digitsToNat [mi1, mi2],
                          digitsToNat [s1, s2], parseFracOffset rest2 with
                    | some h, some mi, some sec, some (us, off) =>
                        some ⟨civilMicros y mo d h mi sec us, off⟩
                    | _, _, _, _ => none
                | _ => none
              else none
      | _, _, _ => none
  | _ => none

/-- `HistoryEntry` (frameworks/base.py): normalized unit of session content.
`role` keeps the raw Python value the providers store there (`null` = `None`). -/
structure HistoryEntry where
  timestamp : Option PyDT
  kind : String
  text : String
  role : JVal
  metadata : PyObj

/-- `SessionContext` (frameworks/base.py). -/
structure SessionContext where
  session_id : String
  entries : List HistoryEntry

/-- `SessionContext.full_text`: entry texts joined by newlines, empty skipped. -/
def SessionContext.full_text (ctx : SessionContext) : String :=
  String.intercalate "\n" ((ctx.entries.filter fun e => e.text != "").map (·.text))

namespace Codex

/-- `CodexHistoryProvider._parse_timestamp`. -/
def parse_timestamp (raw : JVal) : Option PyDT :=
  match raw with
  | .str s => fromisoformat (s.replace "Z" "+00:00")
  | _ => none

/-- `item.get("payload") or {}`, then used as a dict. -/
def getPayload (item : PyObj) : PyObj :=
  toObj (pyOr (pyGet item "payload") (.obj []))

/-- `inner if isinstance(inner, dict) and inner else payload`. -/
def viewOf (payload : PyObj) : PyObj :=
  match pyGet payload "payload" with
  | .obj fs => if !fs.isEmpty then fs else payload
  | _ => payload

/-- `CodexHistoryProvider._entry_from_session_meta`. -/
def entry_from_session_meta (item : PyObj) : Option HistoryEntry :=
  let payload := getPayload item
  let instructions := pyGet payload "instructions"
  if !instructions.truthy then none
  else some
    { timestamp := parse_timestamp (pyGet item "timestamp")
      kind := "session_meta"
      text := pyStr instructions
      role := .str "system"
      metadata := payload }

/-- The `text_parts` collection and join in the `message` branch of
`_entry_from_response_item`: `str(element["text"])` for every dict element
carrying a `"text"` key, then newline-join of the non-empty parts. -/
def joinTextParts (content : List JVal) : String :=
  let text_parts := content.filterMap fun element =>
    match element with
    | .obj fs =>
        match lookupKey fs "text" with
        | some v => some (pyStr v)
        | none => none
    | _ => none
  String.intercalate "\n" (text_parts.filter (· != ""))

/-- JSON string escaping for `json.dumps` (quote and backslash; control
characters are not escaped — no theorem depends on the rendering). -/
def escapeJson (s : String) : String :=
  s.data.foldl
    (fun acc c =>
      acc ++ (if c = '"' then "\\\"" else if c = '\\' then "\\\\" else String.singleton c))
    ""

/-- `json.dumps(..., ensure_ascii=False)` with default separators.  A `JVal`
is always serializable, so the source's `TypeError` fallback to `str()` is
unreachable here. -/
def jsonDumps : JVal → String
  | .null => "null"
  | .bool true => "true"
  | .bool false => "false"
  | .num n => toString n
  | .str s => "\"" ++ escapeJson s ++ "\""
  | .arr xs => "[" ++ String.intercalate ", " (xs.attach.map fun x => jsonDumps x.1) ++ "]"
  | .obj fs => "\x7b" ++ String.intercalate ", "
      (fs.attach.map fun kv => "\"" ++ escapeJson kv.1.1 ++ "\": " ++ jsonDumps kv.1.2) ++ "\x7d"
decreasing_by
  all_goals simp_wf
  · have h := List.sizeOf_lt_of_mem x.2
    omega
  · have h := List.sizeOf_lt_of_mem kv.2
    have h2 : sizeOf kv.1.2 < sizeOf kv.1 := by
      obtain ⟨⟨k, v⟩, hm⟩ := kv
      simp
    omega

/-- `CodexHistoryProvider._format_call_text`. -/
def format_call_text (name arguments : JVal) : String :=
  let parts : List String :=
    (if name.truthy then ["call:" ++ pyStr name] else []) ++
    (if arguments.truthy then [jsonDumps arguments] else [])
  (String.intercalate " " parts).trim

/-- `CodexHistoryProvider._entry_from_response_item`. -/
def entry_from_response_item (item : PyObj) : Option HistoryEntry :=
  let payload := getPayload item
  let variant := pyGet payload "type"
  let view := viewOf payload
  let timestamp := parse_timestamp (pyGet item "timestamp")
  if jeqStr variant "message" then
    let content := toArr (pyOr (pyGet view "content") (.arr []))
    let text := joinTextParts content
    if text == "" then none
    else some { timestamp, kind := "message", text, role := pyGet view "role", metadata := payload }
  else if jeqStr variant "reasoning" then
    let text := (pyStr (pyOr (pyGet view "text") (.str ""))).trim
    if text == "" then none
    else some { timestamp, kind := "reasoning", text, role := pyGet view "role", metadata := payload }
  else if jeqStr variant "function_call" || jeqStr variant "custom_tool_call"
      || jeqStr variant "local_shell_call" then
    let name := pyOr (pyGet view "name") (pyOr (pyGet view "tool_name") (pyGet view "command"))
    let arguments := pyOr (pyGet view "arguments") (pyGet view "input")
    let text := format_call_text name arguments
    if text == "" then none
    else some
      { timestamp, kind := pyStr variant, text
        role := pyOr (pyGet view "role") (.str "assistant"), metadata := payload }
  else none

/-- `CodexHistoryProvider._entry_from_event_msg`. -/
def entry_from_event_msg (item : PyObj) : Option HistoryEntry :=
  let payload := getPayload item
  let variant := pyGet payload "type"
  let view := viewOf payload
  let message := pyOr (pyGet view "message") (pyGet view "text")
  match message with
  | .null => none
  | m => some
      { timestamp := parse_timestamp (pyGet item "timestamp")
        kind := "event:" ++ pyStr variant
        text := pyStr m
        role := pyGet view "role"
        metadata := payload }

/-- `CodexHistoryProvider._entry_from_compacted`. -/
def entry_from_compacted (item : PyObj) : Option HistoryEntry :=
  let payload := getPayload item
  let message := pyGet payload "message"
  if !message.truthy then none
  else some
    { timestamp := parse_timestamp (pyGet item "timestamp")
      kind := "compacted"
      text := pyStr message
      role := .str "assistant"
      metadata := payload }

/-- Per-file loop state of `load_context`: the accumulated entries and the
`discovered_id` (initially `None`). -/
structure FileScan where
  entries : List HistoryEntry
  discovered : JVal

/-- One iteration of the per-record loop in `load_context`. -/
def processItem (scan : FileScan) (item : PyObj) : FileScan :=
  let item_type := pyGet item "type"
  if jeqStr item_type "turn_context" then scan
  else
    let afterMeta :=
      if jeqStr item_type "session_meta" then
        let payload := getPayload item
        let meta_id := pyGet payload "id"
        if meta_id.truthy then { scan with discovered := pyOr scan.discovered meta_id }
        else scan
      else scan
    let entry : Option HistoryEntry :=
      if jeqStr item_type "session_meta" then entry_from_session_meta item
      else if jeqStr item_type "response_item" then entry_from_response_item item
      else if jeqStr item_type "event_msg" then
        let payload := getPayload item
        let variant := pyGet payload "type"
        if jeqStr variant "token_count" || jeqStr variant "agent_message"
            || jeqStr variant "user_message" then none
        else entry_from_event_msg item
      else if jeqStr item_type "compacted" then entry_from_compacted item
      else none
    match entry with
    | some e => { afterMeta with entries := afterMeta.entries ++ [e] }
    | none => afterMeta

/-- The per-candidate-file body of `load_context`: parse every record of the
file (malformed lines were already dropped by `_iter_jsonl`). -/
def processFile (file : List PyObj) : FileScan :=
  file.foldl processItem ⟨[], .null⟩

/-- The candidate loop of `load_context`, carrying the fallback context.  The
`Bool` in the result records whether the fallback warning was logged. -/
def loadContextGo (sid : String) :
    List (List PyObj) → Option SessionContext → Except String (SessionContext × Bool)
  | [], fallback =>
      match fallback with
      | some ctx => .ok (ctx, true)
      | none => .error ("Session history for id \x27" ++ sid ++ "\x27 not found")
  | file :: rest, fallback =>
      let scan := processFile file
      if scan.entries.isEmpty then loadContextGo sid rest fallback
      else if jeqStr scan.discovered sid then
        .ok ({ session_id := sid, entries := scan.entries }, false)
      else loadContextGo sid rest (fallback <|> some { session_id := sid, entries := scan.entries })

/-- `CodexHistoryProvider.load_context`, as a function of the candidate files
in the order `_candidate_paths` would visit them (filename/mtime ordering is
filesystem I/O, external to the embedding). -/
def load_context (sid : String) (candidates : List (List PyObj)) :
    Except String (SessionContext × Bool) :=
  if sid == "" then .error "session_id must be provided to load Codex history"
  else loadContextGo sid candidates none

end Codex

namespace Copilot

/-- `datetime.fromtimestamp(ms / 1000.0)`: a naive datetime (no `tzinfo`).
The conversion to local civil time only shifts the civil fields; the model
keeps the instant, and no theorem depends on the fields beyond naiveness. -/
def fromtimestamp_ms (ms : Int) : PyDT := ⟨ms * 1000, none⟩

/-- The body of the response-fragment loop in `_parse_history_file`:
`timestamp` is the request's shared timestamp, `reqId` is `req.get("id")`. -/
def parseFragment (timestamp : Option PyDT) (reqId : JVal) (resp_item : JVal) :
    List HistoryEntry :=
  let resp := toObj resp_item
  let resp_value := pyGetD resp "value" (.str "")
  if resp_value.truthy then
    [{ timestamp, kind := "message", text := pyStr resp_value, role := .str "assistant"
       metadata := [("requestId", reqId)] }]
  else if jeqStr (pyGet resp "kind") "toolInvocationSerialized" then
    let tool_id := pyGet resp "toolId"
    let tool_call_id := pyGet resp "toolCallId"
    let result_details := toObj (pyGetD resp "resultDetails" (.obj []))
    let input_args := pyGet result_details "input"
    let text_repr := "Tool Call: " ++ pyStr tool_id ++ "\nArguments: " ++ pyStr input_args
    [{ timestamp, kind := "tool_call", text := text_repr, role := .str "assistant"
       metadata := [("requestId", reqId), ("toolCallId", tool_call_id),
                    ("toolId", tool_id), ("input", input_args),
                    ("output", pyGet result_details "output")] }]
  else []

/-- The request's shared timestamp: `fromtimestamp` when the millisecond
field is truthy, else `None`. -/
def requestTimestamp (req : PyObj) : Option PyDT :=
  let timestamp_ms := pyGet req "timestamp"
  if timestamp_ms.truthy then
    match timestamp_ms with
    | .num n => some (fromtimestamp_ms n)
    | _ => none
  else none

/-- The per-request body of `CopilotHistoryProvider._parse_history_file`. -/
def parseRequest (req : PyObj) : List HistoryEntry :=
  let timestamp := requestTimestamp req
  let message := toObj (pyGetD req "message" (.obj []))
  let user_text := pyGetD message "text" (.str "")
  let userEntries : List HistoryEntry :=
    if user_text.truthy then
      [{ timestamp, kind := "message", text := pyStr user_text, role := .str "user"
         metadata := [("requestId", pyGet req "id")] }]
    else []
  let response := toArr (pyGetD req "response" (.arr []))
  userEntries ++ response.flatMap (parseFragment timestamp (pyGet req "id"))

/-- `CopilotHistoryProvider._parse_history_file` on a decoded document. -/
def parse_history_file (data : PyObj) : List HistoryEntry :=
  (toArr (pyGetD data "requests" (.arr []))).flatMap fun req => parseRequest (toObj req)

/-- A discovered candidate file: its base filename (stem), its modification
time, and its decoded JSON document (`none` when `json.load` fails). -/
structure CandidateFile where
  stem : String
  mtime : Int
  doc : Option PyObj

/-- `CopilotHistoryProvider._load_file`. -/
def load_file (doc : Option PyObj) (sid : String) : Except String SessionContext :=
  match doc with
  | none => .error "failed to decode JSON"
  | some data =>
      let entries := parse_history_file data
      if entries.isEmpty then .error "Empty history file"
      else .ok { session_id := sid, entries }

/-- The fallback loop of `load_context`: try each candidate, first success
wins, failures are logged and skipped. -/
def loadFallback : List CandidateFile → Except String SessionContext
  | [] => .error "Could not parse any valid history from the candidates."
  | f :: rest =>
      match load_file f.doc f.stem with
      | .ok ctx => .ok ctx
      | .error _ => loadFallback rest

/-- `CopilotHistoryProvider.load_context`, as a function of the discovered
candidate files (in discovery order; `_find_session_files` is filesystem
I/O, external to the embedding). -/
def load_context (sid : String) (candidates : List CandidateFile) :
    Except String SessionContext :=
  if candidates.isEmpty then .error "No Copilot chat history found."
  else
    match (if sid != "" then candidates.find? (fun f => f.stem == sid) else none) with
    | some f => load_file f.doc sid
    | none => loadFallback (candidates.mergeSort (fun a b => a.mtime ≥ b.mtime))

end Copilot

/-! ## Matching engine (main.py) -/

/-- The dict `_entry_metadata` builds.  The isofromat text of the timestamp
is modelled by the datetime it renders (`None` stays `none`). -/
structure SnippetMeta where
  timestamp : Option PyDT
  kind : String
  role : JVal

/-- One snippet dict produced by `_collect_snippets`. -/
structure Snippet where
  text : String
  metadata : SnippetMeta

/-- `_entry_metadata`. -/
def entry_metadata (e : HistoryEntry) : SnippetMeta :=
  { timestamp := e.timestamp, kind := e.kind, role := e.role }

/-- `_extract_window`: positions count code points, as Python slicing does. -/
def extract_window (text : String) (span : Nat × Nat) (padding : Nat := 80) : String :=
  let start := span.1
  let stop := span.2
  let window_start : Int := max 0 ((start : Int) - (padding : Int))
  let window_end : Int := min ((text.length : Int)) ((stop : Int) + (padding : Int))
  let pre := if window_start > 0 then "…" else ""
  let suf := if window_end < (text.length : Int) then "…" else ""
  pre ++ ((text.data.drop window_start.toNat).take (window_end - window_start).toNat).asString ++ suf

/-- A compiled pattern, modelled by what `_collect_snippets` consumes of it:
`finditer` yielding the list of match spans over a text.  The `re` engine is
an external collaborator; `re.compile` is modelled as a function returning
`none` exactly when compilation raises (`_compile_regex`'s `ValueError`). -/
abbrev Finditer := String → List (Nat × Nat)

/-- `_collect_snippets`. -/
def collect_snippets (finditer : Finditer) (context : SessionContext) : List Snippet :=
  context.entries.flatMap fun entry =>
    if entry.text == "" then []
    else (finditer entry.text).map fun span =>
      { text := extract_window entry.text span, metadata := entry_metadata entry }

/-! ## Sticky note storage (storage.py) -/

/-- An ISO-8601 UTC string with trailing `Z`, identified by the instant its
digits denote (the decimal rendering of the fields is bijective and not
re-modelled character by character). -/
structure IsoZ where
  micros : Int
deriving Repr, DecidableEq

/-- `_dt_to_iso`: a naive datetime gets `tzinfo=utc` attached (fields reread
as UTC), an aware one is converted with `astimezone(utc)` (instant kept). -/
def dt_to_iso (value : PyDT) : IsoZ :=
  match value.utcOffsetMinutes with
  | none => ⟨value.fieldMicros⟩
  | some off => ⟨value.fieldMicros - off * 60000000⟩

/-- `_iso_to_dt`: `fromisoformat` on the `Z`→`+00:00` rewrite yields an aware
UTC datetime, and `astimezone(utc)` is then the identity. -/
def iso_to_dt (value : IsoZ) : PyDT :=
  { fieldMicros := value.micros, utcOffsetMinutes := some 0 }

/-- `StickyNote` (storage.py). -/
structure StickyNote where
  id : String
  message : String
  context_regex : String
  created_at : PyDT
  creator : Option String := none
  trigger_snippets : Option (List String) := none
deriving Repr, DecidableEq

/-- The JSON object a note line holds, in the shape `to_dict` emits: the
optional keys are present iff `some`. -/
structure NoteDict where
  id : String
  message : String
  context_regex : String
  created_at : IsoZ
  creator : Option String
  trigger_snippets : Option (List String)
deriving Repr, DecidableEq

/-- `StickyNote.to_dict`: the optional keys are spliced in only when the
field is truthy (`None`, `""` and `[]` are all omitted). -/
def StickyNote.to_dict (n : StickyNote) : NoteDict :=
  { id := n.id
    message := n.message
    context_regex := n.context_regex
    created_at := dt_to_iso n.created_at
    creator :=
      match n.creator with
      | some c => if c ≠ "" then some c else none
      | none => none
    trigger_snippets :=
      match n.trigger_snippets with
      | some l => if l ≠ [] then some l else none
      | none => none }

/-- `StickyNote.from_dict`: `creator` is kept only when truthy, a present
snippet list is kept as-is (its items are already strings here). -/
def StickyNote.from_dict (payload : NoteDict) : StickyNote :=
  { id := payload.id
    message := payload.message
    context_regex := payload.context_regex
    created_at := iso_to_dt payload.created_at
    creator :=
      match payload.creator with
      | some c => if c ≠ "" then some c else none
      | none => none
    trigger_snippets := payload.trigger_snippets }

/-- `datetime.now(timezone.utc)` (`_timestamp_now`): aware, offset 0. -/
def timestamp_now (nowMicros : Int) : PyDT :=
  { fieldMicros := nowMicros, utcOffsetMinutes := some 0 }

/-- The `StickyNote` constructed by `create_sticky_note`: id from the
argument when truthy else the generated uuid, `creator` left unset, and
`trigger_snippets = snippet_texts or None`. -/
def create_note (note_id : Option String) (uuidHex : String) (message context_regex : String)
    (nowMicros : Int) (snippet_texts : List String) : StickyNote :=
  { id :=
      match note_id with
      | some s => if s ≠ "" then s else uuidHex
      | none => uuidHex
    message := message
    context_regex := context_regex
    created_at := timestamp_now nowMicros
    creator := none
    trigger_snippets := if snippet_texts = [] then none else some snippet_texts }

/-! ## Session note tracker (session_state.py) and the read loop (main.py) -/

/-- `SessionNoteTracker._shown`, as the set of (session, note-id) pairs. -/
abbrev Tracker := List (String × String)

/-- `SessionNoteTracker.has_shown`. -/
def has_shown (t : Tracker) (sid nid : String) : Bool := t.contains (sid, nid)

/-- `SessionNoteTracker.mark_shown` (`set.add` is idempotent). -/
def mark_shown (t : Tracker) (sid nid : String) : Tracker :=
  if t.contains (sid, nid) then t else t ++ [(sid, nid)]

/-- One result payload of `read_relevant_sticky_notes`. -/
structure NotePayload where
  message : String
  trigger_snippets : List String
deriving Repr, DecidableEq

/-- The per-note body of the loop in `read_relevant_sticky_notes`. -/
def readStep (compile : String → Option Finditer) (sid : String) (context : SessionContext)
    (acc : List NotePayload × Tracker) (note : StickyNote) : List NotePayload × Tracker :=
  if has_shown acc.2 sid note.id then acc
  else
    match compile note.context_regex with
    | none => acc
    | some finditer =>
        let snippets := collect_snippets finditer context
        if snippets.isEmpty then acc
        else
          (acc.1 ++ [{ message := note.message, trigger_snippets := snippets.map (·.text) }],
           mark_shown acc.2 sid note.id)

/-- `read_relevant_sticky_notes` after the context has been loaded: the loop
over `notes_store.all_notes()`, returning the results and the tracker state
it leaves behind. -/
def read_relevant_sticky_notes (compile : String → Option Finditer) (sid : String)
    (context : SessionContext) (notes : List StickyNote) (tracker : Tracker) :
    List NotePayload × Tracker :=
  notes.foldl (readStep compile sid context) ([], tracker)

/-! ## Spec-side reference definitions -/

/-- The window as the spec describes it: the substring of `t` from
`max(0, s-80)` to `min(len t, e+80)` (natural subtraction is the clip at 0),
with an ellipsis exactly on each clipped side. -/
def window_spec (t : String) (s e : Nat) : String :=
  let lo := s - 80
  let hi := min t.length (e + 80)
  (if 0 < lo then "…" else "") ++ ((t.data.drop lo).take (hi - lo)).asString
    ++ (if hi < t.length then "…" else "")

/-- The snippets a note's recompiled pattern yields against a context
(empty when compilation fails, as the read loop then skips the note). -/
def noteSnippets (compile : String → Option Finditer) (ctx : SessionContext)
    (n : StickyNote) : List Snippet :=
  match compile n.context_regex with
  | some finditer => collect_snippets finditer ctx
  | none => []

/-- Whether one pass of the read loop delivers a note: not yet shown to the
session, and its pattern compiles and matches at least once. -/
def deliverB (compile : String → Option Finditer) (sid : String) (ctx : SessionContext)
    (tr : Tracker) (n : StickyNote) : Bool :=
  !has_shown tr sid n.id && !(noteSnippets compile ctx n).isEmpty

/-- The payload the read loop emits for a delivered note. -/
def notePayload (compile : String → Option Finditer) (ctx : SessionContext)
    (n : StickyNote) : NotePayload :=
  { message := n.message, trigger_snippets := (noteSnippets compile ctx n).map (·.text) }

/-- A concrete pattern collaborator whose `finditer` yields one span. -/
def demoFindAll : Finditer := fun _ => [(0, 4)]

/-- A concrete pattern collaborator whose `finditer` yields no span. -/
def demoFindNone : Finditer := fun _ => []

/-- A compiler that always succeeds with `demoFindAll`. -/
def demoCompileAll : String → Option Finditer := fun _ => some demoFindAll

/-- A compiler that always succeeds with `demoFindNone`. -/
def demoCompileNone : String → Option Finditer := fun _ => some demoFindNone

/-- A one-entry session context. -/
def demoCtx : SessionContext :=
  { session_id := "s"
    entries := [{ timestamp := none, kind := "message", text := "docs rule"
                  role := .str "user", metadata := [] }] }

/-- A concrete stored note. -/
def demoNote : StickyNote :=
  { id := "n1", message := "be careful", context_regex := "docs"
    created_at := ⟨0, some 0⟩ }

/-- Whether a codex candidate file produces at least one entry. -/
def entryProducing (file : List PyObj) : Bool :=
  !(Codex.processFile file).entries.isEmpty

/-- Whether a codex candidate file produces entries and its discovered
session id exactly equals the requested one. -/
def idMatches (sid : String) (file : List PyObj) : Bool :=
  entryProducing file && jeqStr (Codex.processFile file).discovered sid

/-! ## Theorems -/

set_option maxRecDepth 8192 in
/-- **C3.** The matching engine's window equals the substring of the entry
text from `max(0, s-80)` to `min(len t, e+80)`, with a leading ellipsis
exactly when `max(0, s-80) > 0` and a trailing one exactly when
`min(len t, e+80) < len t`; on a 200-character text with match span
(150, 155) the window starts at offset 70 with a leading ellipsis and no
trailing one. -/
theorem C3_extract_window_spec :
    (∀ (t : String) (s e : Nat), extract_window t (s, e) = window_spec t s e) ∧
    extract_window (String.mk (List.replicate 200 'a')) (150, 155)
      = "…" ++ String.mk (List.replicate 130 'a') := by
  constructor
  · intro t s e
    have hws : (max 0 ((s : Int) - ((80 : Nat) : Int))).toNat = s - 80 := by omega
    have hlen : ((min ((t.length : Int)) ((e : Int) + ((80 : Nat) : Int)))
          - max 0 ((s : Int) - ((80 : Nat) : Int))).toNat
        = min t.length (e + 80) - (s - 80) := by omega
    have hpre : (max 0 ((s : Int) - ((80 : Nat) : Int)) > 0) ↔ (0 < s - 80) := by omega
    have hsuf : (min ((t.length : Int)) ((e : Int) + ((80 : Nat) : Int)) < (t.length : Int))
        ↔ (min t.length (e + 80) < t.length) := by omega
    simp only [extract_window, window_spec, hws, hlen, hpre, hsuf]
  · decide

/-- **C8.** Every note `create_sticky_note` builds survives the
`to_dict`/`from_dict` round-trip unchanged — id, message, regex and the
trigger-snippet list exactly — and the deserialized `created_at` is an
aware UTC timestamp (offset 0). -/
theorem C8_created_note_roundtrip (note_id : Option String) (uuidHex msg rx : String)
    (now : Int) (snippet_texts : List String) :
    StickyNote.from_dict (create_note note_id uuidHex msg rx now snippet_texts).to_dict
      = create_note note_id uuidHex msg rx now snippet_texts ∧
    (StickyNote.from_dict
        (create_note note_id uuidHex msg rx now snippet_texts).to_dict).created_at.utcOffsetMinutes
      = some 0 := by
  constructor
  · unfold create_note StickyNote.to_dict StickyNote.from_dict dt_to_iso iso_to_dt timestamp_now
    cases snippet_texts with
    | nil => simp
    | cons a l => simp
  · unfold create_note StickyNote.to_dict StickyNote.from_dict iso_to_dt
    rfl

/-- **C9.** `to_dict` omits `creator` and `trigger_snippets` whenever they
are falsy (empty string / empty list), not only when `None`; hence the store
round-trip maps an empty snippet list and an empty creator both to `None`,
so it is not the identity on empty-valued optional fields. -/
theorem C9_falsy_optional_fields_dropped :
    (∀ n : StickyNote,
      (n.to_dict.creator = none ↔ (n.creator = none ∨ n.creator = some "")) ∧
      (n.to_dict.trigger_snippets = none
        ↔ (n.trigger_snippets = none ∨ n.trigger_snippets = some []))) ∧
    (∀ (id msg rx : String) (ca : PyDT),
      (StickyNote.from_dict
          (StickyNote.mk id msg rx ca (some "") (some [])).to_dict).creator = none ∧
      (StickyNote.from_dict
          (StickyNote.mk id msg rx ca (some "") (some [])).to_dict).trigger_snippets = none ∧
      StickyNote.from_dict (StickyNote.mk id msg rx ca (some "") (some [])).to_dict
        ≠ StickyNote.mk id msg rx ca (some "") (some [])) := by
  constructor
  · intro n
    constructor
    · unfold StickyNote.to_dict
      rcases n with ⟨id, msg, rx, ca, cr, tr⟩
      rcases cr with _ | c
      · simp
      · by_cases hc : c = "" <;> simp [hc]
    · unfold StickyNote.to_dict
      rcases n with ⟨id, msg, rx, ca, cr, tr⟩
      rcases tr with _ | l
      · simp
      · rcases l with _ | ⟨a, l⟩ <;> simp
  · intro id msg rx ca
    refine ⟨rfl, rfl, ?_⟩
    intro h
    have := congrArg StickyNote.trigger_snippets h
    simp [StickyNote.from_dict, StickyNote.to_dict] at this

/-- Every entry a fragment produces carries the request's shared timestamp. -/
lemma parseFragment_timestamp (ts : Option PyDT) (rid : JVal) (frag : JVal)
    (e : HistoryEntry) (he : e ∈ Copilot.parseFragment ts rid frag) :
    e.timestamp = ts := by
  unfold Copilot.parseFragment at he
  dsimp only at he
  split at he
  · simp at he
    subst he
    rfl
  · split at he
    · simp at he
      subst he
      rfl
    · simp at he

/-- Every entry of a request carries the request's shared timestamp. -/
lemma parseRequest_timestamp (req : PyObj) (e : HistoryEntry)
    (he : e ∈ Copilot.parseRequest req) :
    e.timestamp = Copilot.requestTimestamp req := by
  unfold Copilot.parseRequest at he
  dsimp only at he
  simp only [List.mem_append, List.mem_flatMap] at he
  rcases he with he | ⟨frag, _, he⟩
  · split at he
    · simp at he
      subst he
      rfl
    · simp at he
  · exact parseFragment_timestamp _ _ _ _ he

/-- **C10.** In the JSON-document provider a request whose millisecond
timestamp is absent or `0` yields entries with no timestamp, and a positive
timestamp yields naive datetimes (no `tzinfo`) on every entry. -/
theorem C10_copilot_timestamps (req : PyObj) :
    (lookupKey req "timestamp" = none ∨ lookupKey req "timestamp" = some (.num 0) →
      ∀ e ∈ Copilot.parseRequest req, e.timestamp = none) ∧
    (∀ n : Int, lookupKey req "timestamp" = some (.num n) → 0 < n →
      ∀ e ∈ Copilot.parseRequest req,
        ∃ d, e.timestamp = some d ∧ d.utcOffsetMinutes = none) := by
  constructor
  · intro h e he
    rw [parseRequest_timestamp req e he]
    unfold Copilot.requestTimestamp
    rcases h with h | h <;> simp [pyGet, h, JVal.truthy]
  · intro n h hn e he
    rw [parseRequest_timestamp req e he]
    unfold Copilot.requestTimestamp
    have hnz : (n : Int) ≠ 0 := by omega
    simp [pyGet, h, JVal.truthy, hnz, Copilot.fromtimestamp_ms]

/-- Witness for C10: a request timestamped `0` yields a timestampless entry,
and the same request timestamped `1700000000000` yields a naive one. -/
theorem C10_copilot_timestamps_witness :
    ({ timestamp := none, kind := "message", text := "hi", role := .str "user"
       metadata := [("requestId", JVal.null)] } : HistoryEntry).timestamp = none ∧
    ∃ d, ({ timestamp := some ⟨1700000000000000, none⟩, kind := "message", text := "hi"
            role := .str "user", metadata := [("requestId", JVal.null)] }
          : HistoryEntry).timestamp = some d ∧ d.utcOffsetMinutes = none :=
  ⟨(C10_copilot_timestamps
      [("timestamp", .num 0), ("message", .obj [("text", .str "hi")])]).1 (Or.inr rfl)
      _ (List.mem_singleton_self _),
   (C10_copilot_timestamps
      [("timestamp", .num 1700000000000), ("message", .obj [("text", .str "hi")])]).2
      1700000000000 rfl (by omega) _ (List.mem_singleton_self _)⟩

/-- **C5 counterexample.** A non-noise `event_msg` record whose inner
payload has `message` equal to the empty string and no `text` field yields
NO entry: `"" or view.get("text")` falls through to `None`, so the claimed
"present-but-empty string still counts as present" fails for `message`. -/
theorem C5_empty_message_suppressed :
    Codex.entry_from_event_msg
      [("type", .str "event_msg"),
       ("payload", .obj [("type", .str "agent_reasoning"), ("message", .str "")])]
      = none := rfl

/-- **C5 (amended).** An `event_msg` entry is produced exactly when the
chain `view.get("message") or view.get("text")` is non-`None`: a truthy
`message` wins, otherwise the entry exists iff `text` is present and
non-null (a present-but-empty `text` still yields an entry with empty
text); a falsy-or-absent `message` with no `text` field suppresses it. -/
theorem C5_event_msg_presence (item : PyObj) :
    (pyOr (pyGet (Codex.viewOf (Codex.getPayload item)) "message")
          (pyGet (Codex.viewOf (Codex.getPayload item)) "text") = .null →
      Codex.entry_from_event_msg item = none) ∧
    (∀ v, pyOr (pyGet (Codex.viewOf (Codex.getPayload item)) "message")
          (pyGet (Codex.viewOf (Codex.getPayload item)) "text") = v → v ≠ .null →
      ∃ e, Codex.entry_from_event_msg item = some e ∧ e.text = pyStr v ∧
        e.kind = "event:" ++ pyStr (pyGet (Codex.getPayload item) "type")) := by
  constructor
  · intro h
    unfold Codex.entry_from_event_msg
    dsimp only
    rw [h]
  · intro v hv hne
    unfold Codex.entry_from_event_msg
    dsimp only
    rw [hv]
    cases v with
    | null => exact absurd rfl hne
    | bool b => exact ⟨_, rfl, rfl, rfl⟩
    | num n => exact ⟨_, rfl, rfl, rfl⟩
    | str s => exact ⟨_, rfl, rfl, rfl⟩
    | arr xs => exact ⟨_, rfl, rfl, rfl⟩
    | obj fs => exact ⟨_, rfl, rfl, rfl⟩

/-- Witness for C5: the empty-message/no-text record is suppressed, and the
same record with a present-but-empty `text` field yields an entry with
empty text. -/
theorem C5_event_msg_presence_witness :
    Codex.entry_from_event_msg
      [("type", .str "event_msg"),
       ("payload", .obj [("type", .str "agent_reasoning"), ("message", .str "")])]
      = none ∧
    ∃ e, Codex.entry_from_event_msg
      [("type", .str "event_msg"),
       ("payload", .obj [("type", .str "agent_reasoning"), ("message", .str ""),
                         ("text", .str "")])]
      = some e ∧ e.text = pyStr (.str "") ∧
      e.kind = "event:" ++ pyStr (pyGet (Codex.getPayload
        [("type", .str "event_msg"),
         ("payload", .obj [("type", .str "agent_reasoning"), ("message", .str ""),
                           ("text", .str "")])]) "type") :=
  ⟨(C5_event_msg_presence
      [("type", .str "event_msg"),
       ("payload", .obj [("type", .str "agent_reasoning"), ("message", .str "")])]).1 rfl,
   (C5_event_msg_presence
      [("type", .str "event_msg"),
       ("payload", .obj [("type", .str "agent_reasoning"), ("message", .str ""),
                         ("text", .str "")])]).2 (.str "") rfl
      (fun h => JVal.noConfusion h)⟩

/-- Any context the codex candidate loop returns has entries, provided the
carried fallback does. -/
lemma codex_go_nonempty (sid : String) (cs : List (List PyObj)) :
    ∀ (fb : Option SessionContext), (∀ c, fb = some c → c.entries ≠ []) →
      ∀ ctx w, Codex.loadContextGo sid cs fb = .ok (ctx, w) → ctx.entries ≠ [] := by
  induction cs with
  | nil =>
      intro fb hfb ctx w h
      unfold Codex.loadContextGo at h
      cases fb with
      | none => simp at h
      | some c =>
          simp only [Except.ok.injEq, Prod.mk.injEq] at h
          obtain ⟨hc, -⟩ := h
          exact hc ▸ hfb c rfl
  | cons f rest ih =>
      intro fb hfb ctx w h
      unfold Codex.loadContextGo at h
      dsimp only at h
      by_cases hemp : (Codex.processFile f).entries.isEmpty
      · rw [if_pos hemp] at h
        exact ih fb hfb ctx w h
      · rw [if_neg hemp] at h
        by_cases hmatch : jeqStr (Codex.processFile f).discovered sid = true
        · rw [if_pos hmatch] at h
          simp only [Except.ok.injEq, Prod.mk.injEq] at h
          obtain ⟨hc, -⟩ := h
          rw [← hc]
          simpa using hemp
        · rw [if_neg hmatch] at h
          apply ih _ _ ctx w h
          intro c hc
          cases fb with
          | some c0 =>
              simp only [Option.some_orElse, Option.some.injEq] at hc
              exact hc ▸ hfb c0 rfl
          | none =>
              simp only [Option.none_orElse, Option.some.injEq] at hc
              rw [← hc]
              simpa using hemp

/-- `_load_file` never succeeds with an empty entry list. -/
lemma copilot_load_file_nonempty (doc : Option PyObj) (sid : String)
    (ctx : SessionContext) (h : Copilot.load_file doc sid = .ok ctx) :
    ctx.entries ≠ [] := by
  unfold Copilot.load_file at h
  cases doc with
  | none => simp at h
  | some data =>
      dsimp only at h
      by_cases hemp : (Copilot.parse_history_file data).isEmpty
      · rw [if_pos hemp] at h
        simp at h
      · rw [if_neg hemp] at h
        simp only [Except.ok.injEq] at h
        rw [← h]
        simpa using hemp

/-- The copilot fallback loop returns only contexts `_load_file` accepted. -/
lemma copilot_fallback_nonempty (cs : List Copilot.CandidateFile) :
    ∀ ctx, Copilot.loadFallback cs = .ok ctx → ctx.entries ≠ [] := by
  induction cs with
  | nil =>
      intro ctx h
      simp [Copilot.loadFallback] at h
  | cons f rest ih =>
      intro ctx h
      unfold Copilot.loadFallback at h
      cases hl : Copilot.load_file f.doc f.stem with
      | ok c =>
          rw [hl] at h
          simp only [Except.ok.injEq] at h
          exact h ▸ copilot_load_file_nonempty f.doc f.stem c hl
      | error e =>
          rw [hl] at h
          exact ih ctx h

/-- **C4.** Neither provider ever returns a successful context with an empty
entry sequence: a success always carries at least one entry. -/
theorem C4_no_empty_success :
    (∀ (sid : String) (cs : List (List PyObj)) (ctx : SessionContext) (w : Bool),
      Codex.load_context sid cs = .ok (ctx, w) → ctx.entries ≠ []) ∧
    (∀ (sid : String) (cands : List Copilot.CandidateFile) (ctx : SessionContext),
      Copilot.load_context sid cands = .ok ctx → ctx.entries ≠ []) := by
  constructor
  · intro sid cs ctx w h
    unfold Codex.load_context at h
    by_cases hs : (sid == "") = true
    · rw [if_pos hs] at h
      simp at h
    · rw [if_neg hs] at h
      exact codex_go_nonempty sid cs none (by intro c hc; cases hc) ctx w h
  · intro sid cands ctx h
    unfold Copilot.load_context at h
    by_cases hne : cands.isEmpty
    · rw [if_pos hne] at h
      simp at h
    · rw [if_neg hne] at h
      cases hf : (if sid != "" then cands.find? (fun f => f.stem == sid) else none) with
      | some f =>
          rw [hf] at h
          exact copilot_load_file_nonempty f.doc sid ctx h
      | none =>
          rw [hf] at h
          exact copilot_fallback_nonempty _ ctx h

/-- Witness for C4: a one-file codex log and a one-file copilot store both
load successfully, and the returned contexts are non-empty. -/
theorem C4_no_empty_success_witness :
    ({ session_id := "s"
       entries := [{ timestamp := none, kind := "session_meta", text := "inst"
                     role := .str "system"
                     metadata := [("id", .str "s"), ("instructions", .str "inst")] }] }
      : SessionContext).entries ≠ [] ∧
    ({ session_id := "c"
       entries := [{ timestamp := none, kind := "message", text := "Find me"
                     role := .str "user", metadata := [("requestId", JVal.null)] }] }
      : SessionContext).entries ≠ [] :=
  ⟨C4_no_empty_success.1 "s"
      [[[("type", .str "session_meta"),
         ("payload", .obj [("id", .str "s"), ("instructions", .str "inst")])]]]
      _ false rfl,
   C4_no_empty_success.2 "c"
      [⟨"c", 0, some [("requests",
          .arr [.obj [("message", .obj [("text", .str "Find me")])]])]⟩]
      _ rfl⟩

/-- **C7.** JSON-document parsing: the user entry (kind `message`, role
`user`) is emitted exactly when the request's message text is non-empty; a
fragment with a non-empty display value yields an assistant message entry
with that value and the shared timestamp; a display-less fragment whose
kind is `toolInvocationSerialized` yields a `tool_call` entry whose
metadata carries the tool id, call id, input and output; and the one-request
"Find me" session yields exactly one user entry with that text. -/
theorem C7_copilot_request_entries :
    (∀ (req : PyObj) (s : String),
      pyGetD (toObj (pyGetD req "message" (.obj []))) "text" (.str "") = .str s →
      Copilot.parseRequest req =
        (if s ≠ "" then
          [{ timestamp := Copilot.requestTimestamp req, kind := "message", text := s
             role := .str "user", metadata := [("requestId", pyGet req "id")] }]
         else []) ++
        (toArr (pyGetD req "response" (.arr []))).flatMap
          (Copilot.parseFragment (Copilot.requestTimestamp req) (pyGet req "id"))) ∧
    (∀ (ts : Option PyDT) (rid : JVal) (frag : JVal) (v : String),
      pyGetD (toObj frag) "value" (.str "") = .str v → v ≠ "" →
      Copilot.parseFragment ts rid frag =
        [{ timestamp := ts, kind := "message", text := v, role := .str "assistant"
           metadata := [("requestId", rid)] }]) ∧
    (∀ (ts : Option PyDT) (rid : JVal) (frag : JVal),
      (pyGetD (toObj frag) "value" (.str "")).truthy = false →
      jeqStr (pyGet (toObj frag) "kind") "toolInvocationSerialized" = true →
      Copilot.parseFragment ts rid frag =
        [{ timestamp := ts, kind := "tool_call"
           text := "Tool Call: " ++ pyStr (pyGet (toObj frag) "toolId") ++ "\nArguments: "
             ++ pyStr (pyGet (toObj (pyGetD (toObj frag) "resultDetails" (.obj []))) "input")
           role := .str "assistant"
           metadata := [("requestId", rid),
             ("toolCallId", pyGet (toObj frag) "toolCallId"),
             ("toolId", pyGet (toObj frag) "toolId"),
             ("input", pyGet (toObj (pyGetD (toObj frag) "resultDetails" (.obj []))) "input"),
             ("output",
              pyGet (toObj (pyGetD (toObj frag) "resultDetails" (.obj []))) "output")] }]) ∧
    Copilot.parse_history_file
      [("requests", .arr [.obj [("message", .obj [("text", .str "Find me")])]])]
      = [{ timestamp := none, kind := "message", text := "Find me", role := .str "user"
           metadata := [("requestId", JVal.null)] }] := by
  refine ⟨?_, ?_, ?_, rfl⟩
  · intro req s h
    unfold Copilot.parseRequest
    dsimp only
    rw [h]
    by_cases hs : s = ""
    · subst hs
      simp [JVal.truthy]
    · simp [JVal.truthy, hs, pyStr]
  · intro ts rid frag v h hv
    unfold Copilot.parseFragment
    dsimp only
    rw [h]
    simp [JVal.truthy, hv, pyStr]
  · intro ts rid frag hfalse htool
    unfold Copilot.parseFragment
    dsimp only
    rw [hfalse]
    simp only [Bool.false_eq_true, if_false, htool, if_true]

/-- Witness for C7: the "Find me" request, a fragment with display value
`"ok"`, and a display-less serialized tool invocation. -/
theorem C7_copilot_request_entries_witness :
    Copilot.parseRequest [("message", .obj [("text", .str "Find me")])] =
      (if "Find me" ≠ "" then
        [{ timestamp := Copilot.requestTimestamp
              [("message", .obj [("text", .str "Find me")])]
           kind := "message", text := "Find me", role := .str "user"
           metadata := [("requestId",
              pyGet [("message", .obj [("text", .str "Find me")])] "id")] }]
       else []) ++
      (toArr (pyGetD [("message", .obj [("text", .str "Find me")])] "response" (.arr []))).flatMap
        (Copilot.parseFragment
          (Copilot.requestTimestamp [("message", .obj [("text", .str "Find me")])])
          (pyGet [("message", .obj [("text", .str "Find me")])] "id")) ∧
    Copilot.parseFragment none .null (.obj [("value", .str "ok")]) =
      [{ timestamp := none, kind := "message", text := "ok", role := .str "assistant"
         metadata := [("requestId", JVal.null)] }] ∧
    Copilot.parseFragment none .null
        (.obj [("kind", .str "toolInvocationSerialized"), ("toolId", .str "grep")]) =
      [{ timestamp := none, kind := "tool_call"
         text := "Tool Call: " ++ pyStr (pyGet (toObj (JVal.obj
             [("kind", .str "toolInvocationSerialized"), ("toolId", .str "grep")])) "toolId")
           ++ "\nArguments: " ++ pyStr (pyGet (toObj (pyGetD (toObj (JVal.obj
             [("kind", .str "toolInvocationSerialized"), ("toolId", .str "grep")]))
             "resultDetails" (.obj []))) "input")
         role := .str "assistant"
         metadata := [("requestId", JVal.null), ("toolCallId", JVal.null),
           ("toolId", .str "grep"), ("input", JVal.null), ("output", JVal.null)] }] :=
  ⟨C7_copilot_request_entries.1 [("message", .obj [("text", .str "Find me")])] "Find me" rfl,
   C7_copilot_request_entries.2.1 none .null (.obj [("value", .str "ok")]) "ok" rfl
     (by decide),
   C7_copilot_request_entries.2.2.1 none .null
     (.obj [("kind", .str "toolInvocationSerialized"), ("toolId", .str "grep")]) rfl rfl⟩

/-- `has_shown` is membership in the shown-pairs set. -/
lemma has_shown_iff_mem (t : Tracker) (s nid : String) :
    has_shown t s nid = true ↔ (s, nid) ∈ t := by
  simp [has_shown, List.contains, List.elem_eq_mem]

/-- Marking one note id does not change the delivery decision for a note
with a different id. -/
lemma deliverB_mark_other (c : String → Option Finditer) (s : String) (ctx : SessionContext)
    (tr : Tracker) (nid : String) (m : StickyNote) (h : m.id ≠ nid) :
    deliverB c s ctx (tr ++ [(s, nid)]) m = deliverB c s ctx tr m := by
  unfold deliverB
  have hs : has_shown (tr ++ [(s, nid)]) s m.id = has_shown tr s m.id := by
    simp [has_shown, List.contains, List.elem_eq_mem, List.mem_append, h]
  rw [hs]

/-- Characterization of the read loop: starting from accumulated results
`rs` and tracker `tr`, it appends exactly the payloads of the notes the
delivery predicate (w.r.t. the starting tracker) selects, in store order,
and marks exactly those notes, provided note ids are distinct. -/
lemma read_loop_spec (c : String → Option Finditer) (sid : String) (ctx : SessionContext) :
    ∀ (notes : List StickyNote) (rs : List NotePayload) (tr : Tracker),
      (notes.map (·.id)).Nodup →
      notes.foldl (readStep c sid ctx) (rs, tr) =
        (rs ++ (notes.filter (deliverB c sid ctx tr)).map (notePayload c ctx),
         tr ++ (notes.filter (deliverB c sid ctx tr)).map (fun n => (sid, n.id))) := by
  intro notes
  induction notes with
  | nil => intro rs tr _; simp
  | cons n rest ih =>
      intro rs tr hnd
      rw [List.map_cons, List.nodup_cons] at hnd
      obtain ⟨hnotin, hnd'⟩ := hnd
      rw [List.foldl_cons]
      by_cases hshown : has_shown tr sid n.id = true
      · have hstep : readStep c sid ctx (rs, tr) n = (rs, tr) := by
          unfold readStep
          rw [hshown]
          simp
        have hdel : deliverB c sid ctx tr n = false := by
          simp [deliverB, hshown]
        rw [hstep, ih rs tr hnd', List.filter_cons, hdel]
        simp
      · have hshown' : has_shown tr sid n.id = false := by
          simpa using hshown
        cases hc : c n.context_regex with
        | none =>
            have hstep : readStep c sid ctx (rs, tr) n = (rs, tr) := by
              unfold readStep
              rw [hshown', hc]
              simp
            have hdel : deliverB c sid ctx tr n = false := by
              simp [deliverB, noteSnippets, hc]
            rw [hstep, ih rs tr hnd', List.filter_cons, hdel]
            simp
        | some fd =>
            by_cases hsn : (collect_snippets fd ctx).isEmpty
            · have hstep : readStep c sid ctx (rs, tr) n = (rs, tr) := by
                unfold readStep
                rw [hshown', hc]
                simp [hsn]
              have hdel : deliverB c sid ctx tr n = false := by
                simp [deliverB, noteSnippets, hc, hsn]
              rw [hstep, ih rs tr hnd', List.filter_cons, hdel]
              simp
            · have hmark : mark_shown tr sid n.id = tr ++ [(sid, n.id)] := by
                unfold mark_shown
                rw [show tr.contains (sid, n.id) = false from by simpa [has_shown] using hshown']
                simp
              have hstep : readStep c sid ctx (rs, tr) n =
                  (rs ++ [notePayload c ctx n], tr ++ [(sid, n.id)]) := by
                unfold readStep
                rw [hshown', hc]
                simp only [Bool.false_eq_true, if_false, hmark]
                rw [if_neg (by simpa using hsn)]
                unfold notePayload noteSnippets
                rw [hc]
              have hdel : deliverB c sid ctx tr n = true := by
                simp [deliverB, noteSnippets, hc, hshown', hsn]
              have hfilter : rest.filter (deliverB c sid ctx (tr ++ [(sid, n.id)]))
                  = rest.filter (deliverB c sid ctx tr) := by
                apply List.filter_congr
                intro m hm
                exact deliverB_mark_other c sid ctx tr n.id m
                  (fun hid => hnotin (hid ▸ List.mem_map_of_mem (·.id) hm))
              rw [hstep, ih (rs ++ [notePayload c ctx n]) (tr ++ [(sid, n.id)]) hnd',
                hfilter, List.filter_cons, hdel]
              simp

/-- **C1.** Per session, each stored note is delivered at most once: on a
call where its recompiled pattern yields snippets against the loaded
context, the note is included in the results and marked shown, and any
later call of the session (over any freshly loaded context) omits it — the
call's results are exactly the not-yet-shown matching notes, and the note
no longer qualifies.  A note yielding zero snippets is not marked shown and
stays eligible. -/
theorem C1_note_delivered_at_most_once
    (c : String → Option Finditer) (sid : String) (ctx1 : SessionContext)
    (notes : List StickyNote) (tr : Tracker) (note : StickyNote)
    (hnd : (notes.map (·.id)).Nodup) (hmem : note ∈ notes)
    (hunshown : has_shown tr sid note.id = false) :
    (∀ fd, c note.context_regex = some fd → (collect_snippets fd ctx1).isEmpty = false →
       notePayload c ctx1 note ∈ (read_relevant_sticky_notes c sid ctx1 notes tr).1 ∧
       has_shown (read_relevant_sticky_notes c sid ctx1 notes tr).2 sid note.id = true ∧
       (∀ ctx2 : SessionContext,
         (read_relevant_sticky_notes c sid ctx2 notes
             (read_relevant_sticky_notes c sid ctx1 notes tr).2).1
           = (notes.filter
               (deliverB c sid ctx2 (read_relevant_sticky_notes c sid ctx1 notes tr).2)).map
               (notePayload c ctx2) ∧
         deliverB c sid ctx2 (read_relevant_sticky_notes c sid ctx1 notes tr).2 note
           = false)) ∧
    (∀ fd, c note.context_regex = some fd → (collect_snippets fd ctx1).isEmpty = true →
       has_shown (read_relevant_sticky_notes c sid ctx1 notes tr).2 sid note.id = false ∧
       deliverB c sid ctx1 tr note = false) := by
  have hspec := read_loop_spec c sid ctx1 notes [] tr hnd
  constructor
  · intro fd hfd hne
    have hdel : deliverB c sid ctx1 tr note = true := by
      simp [deliverB, noteSnippets, hfd, hunshown, hne]
    have hfil : note ∈ notes.filter (deliverB c sid ctx1 tr) :=
      List.mem_filter.mpr ⟨hmem, hdel⟩
    have hshown1 : has_shown (read_relevant_sticky_notes c sid ctx1 notes tr).2 sid note.id
        = true := by
      rw [show (read_relevant_sticky_notes c sid ctx1 notes tr).2
          = tr ++ (notes.filter (deliverB c sid ctx1 tr)).map (fun n => (sid, n.id))
          from congrArg Prod.snd hspec]
      exact (has_shown_iff_mem _ _ _).mpr
        (List.mem_append.mpr (Or.inr (List.mem_map_of_mem _ hfil)))
    refine ⟨?_, hshown1, ?_⟩
    · rw [show (read_relevant_sticky_notes c sid ctx1 notes tr).1
          = [] ++ (notes.filter (deliverB c sid ctx1 tr)).map (notePayload c ctx1)
          from congrArg Prod.fst hspec]
      rw [List.nil_append]
      exact List.mem_map_of_mem _ hfil
    · intro ctx2
      have hspec2 := read_loop_spec c sid ctx2 notes []
        (read_relevant_sticky_notes c sid ctx1 notes tr).2 hnd
      constructor
      · rw [show (read_relevant_sticky_notes c sid ctx2 notes
              (read_relevant_sticky_notes c sid ctx1 notes tr).2).1
            = [] ++ (notes.filter
                (deliverB c sid ctx2 (read_relevant_sticky_notes c sid ctx1 notes tr).2)).map
                (notePayload c ctx2)
            from congrArg Prod.fst hspec2]
        rw [List.nil_append]
      · simp [deliverB, hshown1]
  · intro fd hfd hemp
    have hdel : deliverB c sid ctx1 tr note = false := by
      simp [deliverB, noteSnippets, hfd, hemp]
    refine ⟨?_, hdel⟩
    rw [show (read_relevant_sticky_notes c sid ctx1 notes tr).2
        = tr ++ (notes.filter (deliverB c sid ctx1 tr)).map (fun n => (sid, n.id))
        from congrArg Prod.snd hspec]
    rw [Bool.eq_false_iff]
    intro htrue
    rcases List.mem_append.mp ((has_shown_iff_mem _ _ _).mp htrue) with h | h
    · rw [show has_shown tr sid note.id = true from (has_shown_iff_mem _ _ _).mpr h]
        at hunshown
      exact Bool.true_eq_false.mp hunshown
    · obtain ⟨m, hmfil, hmeq⟩ := List.mem_map.mp h
      have hid : m.id = note.id := (Prod.mk.injEq _ _ _ _).mp hmeq |>.2
      have hm : m = note :=
        List.inj_on_of_nodup_map hnd (List.mem_filter.mp hmfil).1 hmem hid
      have : deliverB c sid ctx1 tr note = true := hm ▸ (List.mem_filter.mp hmfil).2
      rw [hdel] at this
      exact Bool.false_eq_true.mp this

/-- Witness for C1: a matching note is delivered and marked on the first
call and omitted on the second; a non-matching note is left unmarked. -/
theorem C1_note_delivered_at_most_once_witness :
    notePayload demoCompileAll demoCtx demoNote
      ∈ (read_relevant_sticky_notes demoCompileAll "s" demoCtx [demoNote] []).1 ∧
    has_shown (read_relevant_sticky_notes demoCompileAll "s" demoCtx [demoNote] []).2 "s"
      demoNote.id = true ∧
    (read_relevant_sticky_notes demoCompileAll "s" demoCtx [demoNote]
        (read_relevant_sticky_notes demoCompileAll "s" demoCtx [demoNote] []).2).1
      = ([demoNote].filter (deliverB demoCompileAll "s" demoCtx
          (read_relevant_sticky_notes demoCompileAll "s" demoCtx [demoNote] []).2)).map
          (notePayload demoCompileAll demoCtx) ∧
    deliverB demoCompileAll "s" demoCtx
        (read_relevant_sticky_notes demoCompileAll "s" demoCtx [demoNote] []).2 demoNote
      = false ∧
    has_shown (read_relevant_sticky_notes demoCompileNone "s" demoCtx [demoNote] []).2 "s"
      demoNote.id = false ∧
    deliverB demoCompileNone "s" demoCtx [] demoNote = false := by
  have h1 := C1_note_delivered_at_most_once demoCompileAll "s" demoCtx [demoNote] []
    demoNote (by decide) (List.mem_singleton_self _) rfl
  have h2 := C1_note_delivered_at_most_once demoCompileNone "s" demoCtx [demoNote] []
    demoNote (by decide) (List.mem_singleton_self _) rfl
  exact ⟨(h1.1 demoFindAll rfl rfl).1, (h1.1 demoFindAll rfl rfl).2.1,
    ((h1.1 demoFindAll rfl rfl).2.2 demoCtx).1, ((h1.1 demoFindAll rfl rfl).2.2 demoCtx).2,
    (h2.2 demoFindNone rfl rfl).1, (h2.2 demoFindNone rfl rfl).2⟩

/-- The codex candidate loop resolves to the first entry-producing file
whose discovered id matches, else to the carried fallback, else to the
first entry-producing file, else to an error. -/
lemma codex_go_find_spec (sid : String) (cs : List (List PyObj)) :
    ∀ fb : Option SessionContext,
      Codex.loadContextGo sid cs fb =
        match cs.find? (idMatches sid) with
        | some f =>
            .ok ({ session_id := sid, entries := (Codex.processFile f).entries }, false)
        | none =>
            match fb <|> (cs.find? entryProducing).map
                (fun f => { session_id := sid, entries := (Codex.processFile f).entries }) with
            | some ctx => .ok (ctx, true)
            | none => .error ("Session history for id \x27" ++ sid ++ "\x27 not found") := by
  induction cs with
  | nil =>
      intro fb
      unfold Codex.loadContextGo
      cases fb <;> simp
  | cons f rest ih =>
      intro fb
      unfold Codex.loadContextGo
      dsimp only
      by_cases hemp : (Codex.processFile f).entries.isEmpty
      · have hep : entryProducing f = false := by simp [entryProducing, hemp]
        have him : idMatches sid f = false := by simp [idMatches, hep]
        rw [if_pos hemp, ih fb, List.find?_cons_of_neg _ (by simp [him]),
          List.find?_cons_of_neg _ (by simp [hep])]
      · have hep : entryProducing f = true := by simp [entryProducing, hemp]
        rw [if_neg hemp]
        by_cases hmatch : jeqStr (Codex.processFile f).discovered sid = true
        · have him : idMatches sid f = true := by simp [idMatches, hep, hmatch]
          rw [if_pos hmatch, List.find?_cons_of_pos _ (by simp [him])]
        · have him : idMatches sid f = false := by simp [idMatches, hmatch]
          rw [if_neg hmatch, ih, List.find?_cons_of_neg _ (by simp [him]),
            List.find?_cons_of_pos _ (by simp [hep])]
          cases hrest : rest.find? (idMatches sid) with
          | some g => rfl
          | none =>
              cases fb with
              | none => simp
              | some c0 => simp

/-- **C2.** Among entry-producing candidate files, the first (in candidate
order) whose discovered session id exactly equals the requested id is
returned with `session_id` equal to the requested id and no fallback
warning; if none matches, the first entry-producing file is returned as a
fallback after the scan, with the warning, and its `session_id` is still
the requested id, never the discovered one. -/
theorem C2_codex_candidate_resolution (sid : String) (cs : List (List PyObj))
    (hsid : sid ≠ "") :
    (∀ f, cs.find? (idMatches sid) = some f →
      Codex.load_context sid cs
        = .ok ({ session_id := sid, entries := (Codex.processFile f).entries }, false)) ∧
    (cs.find? (idMatches sid) = none →
      ∀ f, cs.find? entryProducing = some f →
        Codex.load_context sid cs
          = .ok ({ session_id := sid, entries := (Codex.processFile f).entries }, true)) := by
  have hguard : Codex.load_context sid cs = Codex.loadContextGo sid cs none := by
    unfold Codex.load_context
    rw [if_neg (by simpa using hsid)]
  constructor
  · intro f hf
    rw [hguard, codex_go_find_spec sid cs none, hf]
  · intro hnone f hf
    rw [hguard, codex_go_find_spec sid cs none, hnone, hf]
    rfl

/-- Witness for C2: with one wrong-id file and one matching file the
matching file wins without a warning; with only the wrong-id file it is
returned as the fallback with the warning, still under the requested id. -/
theorem C2_codex_candidate_resolution_witness :
    Codex.load_context "s2"
      [[[("type", .str "session_meta"),
         ("payload", .obj [("id", .str "other"), ("instructions", .str "w")])]],
       [[("type", .str "session_meta"),
         ("payload", .obj [("id", .str "s2"), ("instructions", .str "m")])]]]
      = .ok ({ session_id := "s2"
               entries := (Codex.processFile
                 [[("type", .str "session_meta"),
                   ("payload", .obj [("id", .str "s2"), ("instructions", .str "m")])]]).entries },
             false) ∧
    Codex.load_context "s2"
      [[[("type", .str "session_meta"),
         ("payload", .obj [("id", .str "other"), ("instructions", .str "w")])]]]
      = .ok ({ session_id := "s2"
               entries := (Codex.processFile
                 [[("type", .str "session_meta"),
                   ("payload", .obj [("id", .str "other"), ("instructions", .str "w")])]]).entries },
             true) :=
  ⟨(C2_codex_candidate_resolution "s2"
      [[[("type", .str "session_meta"),
         ("payload", .obj [("id", .str "other"), ("instructions", .str "w")])]],
       [[("type", .str "session_meta"),
         ("payload", .obj [("id", .str "s2"), ("instructions", .str "m")])]]]
      (by decide)).1
      [[("type", .str "session_meta"),
        ("payload", .obj [("id", .str "s2"), ("instructions", .str "m")])]] rfl,
   (C2_codex_candidate_resolution "s2"
      [[[("type", .str "session_meta"),
         ("payload", .obj [("id", .str "other"), ("instructions", .str "w")])]]]
      (by decide)).2 rfl
      [[("type", .str "session_meta"),
        ("payload", .obj [("id", .str "other"), ("instructions", .str "w")])]] rfl⟩

/-- `Nat.digitChar` of a value below 10 is a digit character. -/
lemma digitChar_isDigit (m : Nat) (h : m < 10) : (Nat.digitChar m).isDigit = true := by
  interval_cases m <;> decide

/-- All characters `Nat.toDigitsCore` emits over base 10 are digits. -/
lemma toDigitsCore_digits (fuel : Nat) :
    ∀ (n : Nat) (acc : List Char), (∀ c ∈ acc, c.isDigit = true) →
      ∀ c ∈ Nat.toDigitsCore 10 fuel n acc, c.isDigit = true := by
  induction fuel with
  | zero =>
      intro n acc hacc c hc
      exact hacc c hc
  | succ fuel ih =>
      intro n acc hacc c hc
      unfold Nat.toDigitsCore at hc
      dsimp only at hc
      have hcons : ∀ c' ∈ Nat.digitChar (n % 10) :: acc, c'.isDigit = true := by
        intro c' hc'
        rcases List.mem_cons.mp hc' with rfl | hmem
        · exact digitChar_isDigit _ (Nat.mod_lt _ (by omega))
        · exact hacc _ hmem
      by_cases h0 : n / 10 = 0
      · rw [if_pos h0] at hc
        exact hcons c hc
      · rw [if_neg h0] at hc
        exact ih _ _ hcons c hc

/-- All characters of the decimal rendering of a `Nat` are digits. -/
lemma toDigits_digits (n : Nat) : ∀ c ∈ Nat.toDigits 10 n, c.isDigit = true :=
  toDigitsCore_digits _ _ [] (by simp)

/-- The first character of `str(int)` is a digit or a minus sign. -/
lemma int_toString_head (n : Int) (c : Char)
    (hc : (toString n).data.head? = some c) : c.isDigit = true ∨ c = '-' := by
  cases n with
  | ofNat m =>
      left
      have : (toString (Int.ofNat m)) = (Nat.toDigits 10 m).asString := rfl
      rw [this] at hc
      cases hd : Nat.toDigits 10 m with
      | nil => rw [show (Nat.toDigits 10 m).asString.data = [] from by rw [hd]; rfl] at hc
               simp at hc
      | cons a l =>
          have : (Nat.toDigits 10 m).asString.data = a :: l := by rw [hd]; rfl
          rw [this] at hc
          simp only [List.head?_cons, Option.some.injEq] at hc
          subst hc
          exact toDigits_digits m _ (by rw [hd]; exact List.mem_cons_self _ _)
  | negSucc m =>
      right
      have : (toString (Int.negSucc m)).data = '-' :: (toString (m + 1)).data := rfl
      rw [this] at hc
      simp only [List.head?_cons, Option.some.injEq] at hc
      exact hc.symm

/-- If `str(v)` equals a string whose first character is none of the
characters `str()` can start a non-string value with (digits, `-`, `N`,
`T`, `F`, `[`, `{`), then `v` is that very string. -/
lemma pyStr_eq_of_head (v : JVal) (s : String) (h : pyStr v = s) (c : Char)
    (hc : s.data.head? = some c) (hdg : c.isDigit = false) (h1 : c ≠ '-') (h2 : c ≠ 'N')
    (h3 : c ≠ 'T') (h4 : c ≠ 'F') (h5 : c ≠ '[') (h6 : c ≠ '{') : v = .str s := by
  cases v with
  | str t => exact congrArg JVal.str h
  | null =>
      exfalso
      rw [show pyStr .null = "None" from by simp [pyStr, pyRepr]] at h
      rw [← h] at hc
      rw [show ("None" : String).data.head? = some 'N' from rfl] at hc
      injection hc with hc
      exact h2 hc.symm
  | bool b =>
      exfalso
      cases b with
      | true =>
          rw [show pyStr (.bool true) = "True" from by simp [pyStr, pyRepr]] at h
          rw [← h] at hc
          rw [show ("True" : String).data.head? = some 'T' from rfl] at hc
          injection hc with hc
          exact h3 hc.symm
      | false =>
          rw [show pyStr (.bool false) = "False" from by simp [pyStr, pyRepr]] at h
          rw [← h] at hc
          rw [show ("False" : String).data.head? = some 'F' from rfl] at hc
          injection hc with hc
          exact h4 hc.symm
  | num n =>
      exfalso
      rw [show pyStr (.num n) = toString n from by simp [pyStr, pyRepr]] at h
      rw [← h] at hc
      rcases int_toString_head n c hc with hd | hd
      · rw [hd] at hdg
        exact Bool.true_eq_false.mp hdg
      · exact h1 hd
  | arr xs =>
      exfalso
      have harr : (pyStr (.arr xs)).data.head? = some '[' := by
        rw [show pyStr (.arr xs)
            = "[" ++ String.intercalate ", " (xs.attach.map fun x => pyRepr x.1) ++ "]"
          from by simp [pyStr, pyRepr]]
        rw [String.data_append, String.data_append]
        rfl
      rw [h] at harr
      rw [hc] at harr
      injection harr with harr
      exact h5 harr
  | obj fs =>
      exfalso
      have hobj : (pyStr (.obj fs)).data.head? = some '{' := by
        rw [show pyStr (.obj fs)
            = "\x7b" ++ String.intercalate ", "
                (fs.attach.map fun kv => "\x27" ++ kv.1.1 ++ "\x27: " ++ pyRepr kv.1.2)
              ++ "\x7d"
          from by simp [pyStr, pyRepr]]
        rw [String.data_append, String.data_append]
        rfl
      rw [h] at hobj
      rw [hc] at hobj
      injection hobj with hobj
      exact h6 hobj

/-- A successful `jeqStr` comparison pins the value to that string. -/
lemma jeqStr_eq_true (v : JVal) (s : String) (h : jeqStr v s = true) : v = .str s := by
  cases v <;> simp [jeqStr] at h
  exact congrArg JVal.str h

/-- An `event:`-prefixed kind is never the `turn_context` kind. -/
lemma event_prefix_ne_turn (x : String) : "event:" ++ x ≠ "turn_context" := by
  intro h
  have hd := congrArg String.data h
  rw [String.data_append] at hd
  rw [show ("event:" : String).data = ['e', 'v', 'e', 'n', 't', ':'] from rfl] at hd
  rw [show ("turn_context" : String).data
      = ['t', 'u', 'r', 'n', '_', 'c', 'o', 'n', 't', 'e', 'x', 't'] from rfl] at hd
  simp at hd

/-- If the noise filter rejected `variant == target`, the produced kind
`f"event:{variant}"` cannot be `event:<target>` either (for targets whose
first character `str()` cannot produce from a non-string value). -/
lemma event_kind_ne (variant : JVal) (target : String) (hj : jeqStr variant target = false)
    (c : Char) (hc : target.data.head? = some c) (hdg : c.isDigit = false) (h1 : c ≠ '-')
    (h2 : c ≠ 'N') (h3 : c ≠ 'T') (h4 : c ≠ 'F') (h5 : c ≠ '[') (h6 : c ≠ '{') :
    ("event:" ++ pyStr variant) ≠ "event:" ++ target := by
  intro h
  have hps : pyStr variant = target := by
    have hd := congrArg String.data h
    rw [String.data_append, String.data_append] at hd
    exact String.ext (List.append_cancel_left hd)
  have hv := pyStr_eq_of_head variant target hps c hc hdg h1 h2 h3 h4 h5 h6
  rw [hv] at hj
  simp [jeqStr] at hj

/-- Kind of a `session_meta` entry. -/
lemma session_meta_kind (item : PyObj) (e : HistoryEntry)
    (h : Codex.entry_from_session_meta item = some e) : e.kind = "session_meta" := by
  unfold Codex.entry_from_session_meta at h
  dsimp only at h
  split at h
  · exact absurd h (by simp)
  · injection h with h
    rw [← h]

/-- Kinds a `response_item` entry can take. -/
lemma response_item_kind (item : PyObj) (e : HistoryEntry)
    (h : Codex.entry_from_response_item item = some e) :
    e.kind = "message" ∨ e.kind = "reasoning" ∨ e.kind = "function_call"
      ∨ e.kind = "custom_tool_call" ∨ e.kind = "local_shell_call" := by
  unfold Codex.entry_from_response_item at h
  dsimp only at h
  split at h
  · split at h
    · exact absurd h (by simp)
    · injection h with h
      exact Or.inl (by rw [← h])
  · split at h
    · split at h
      · exact absurd h (by simp)
      · injection h with h
        exact Or.inr (Or.inl (by rw [← h]))
    · split at h
      · next hcall =>
          split at h
          · exact absurd h (by simp)
          · injection h with h
            rcases Bool.or_eq_true _ _ |>.mp hcall with hcall | hcall
            rotate_left
            · exact Or.inr (Or.inr (Or.inr (Or.inr (by
                rw [← h, jeqStr_eq_true _ _ hcall]
                rfl))))
            rcases Bool.or_eq_true _ _ |>.mp hcall with hcall | hcall
            · exact Or.inr (Or.inr (Or.inl (by
                rw [← h, jeqStr_eq_true _ _ hcall]
                rfl)))
            · exact Or.inr (Or.inr (Or.inr (Or.inl (by
                rw [← h, jeqStr_eq_true _ _ hcall]
                rfl))))
      · exact absurd h (by simp)

/-- Kind of an `event_msg` entry. -/
lemma event_msg_kind (item : PyObj) (e : HistoryEntry)
    (h : Codex.entry_from_event_msg item = some e) :
    e.kind = "event:" ++ pyStr (pyGet (Codex.getPayload item) "type") := by
  unfold Codex.entry_from_event_msg at h
  dsimp only at h
  split at h
  · exact absurd h (by simp)
  · injection h with h
    rw [← h]

/-- Kind of a `compacted` entry. -/
lemma compacted_kind (item : PyObj) (e : HistoryEntry)
    (h : Codex.entry_from_compacted item = some e) : e.kind = "compacted" := by
  unfold Codex.entry_from_compacted at h
  dsimp only at h
  split at h
  · exact absurd h (by simp)
  · injection h with h
    rw [← h]

/-- Every entry after one `processItem` step was either already there or
was produced by one of the four record mappings (an `event_msg` one only
after surviving the noise filter). -/
lemma processItem_entry_cases (scan : Codex.FileScan) (item : PyObj) :
    ∀ e ∈ (Codex.processItem scan item).entries,
      e ∈ scan.entries ∨
      Codex.entry_from_session_meta item = some e ∨
      Codex.entry_from_response_item item = some e ∨
      (Codex.entry_from_event_msg item = some e ∧
        jeqStr (pyGet (Codex.getPayload item) "type") "token_count" = false ∧
        jeqStr (pyGet (Codex.getPayload item) "type") "agent_message" = false ∧
        jeqStr (pyGet (Codex.getPayload item) "type") "user_message" = false) ∨
      Codex.entry_from_compacted item = some e := by
  intro e he
  unfold Codex.processItem at he
  dsimp only at he
  split at he
  · exact Or.inl he
  · split at he
    next e' hent =>
      rcases List.mem_append.mp he with hmem | hmem
      · left
        split at hmem <;> first
          | exact hmem
          | (split at hmem <;> exact hmem)
      · have heq : e = e' := by simpa using hmem
        subst heq
        split at hent
        · exact Or.inr (Or.inl hent)
        · split at hent
          · exact Or.inr (Or.inr (Or.inl hent))
          · split at hent
            · split at hent
              next hn =>
                exact absurd hent (by simp)
              next hn =>
                have hn' := hn
                simp only [Bool.or_eq_true, not_or, Bool.not_eq_true] at hn'
                exact Or.inr (Or.inr (Or.inr (Or.inl ⟨hent, hn'.1.1, hn'.1.2, hn'.2⟩)))
            · split at hent
              · exact Or.inr (Or.inr (Or.inr (Or.inr hent)))
              · exact absurd hent (by simp)
    next hent =>
      left
      split at he <;> first
        | exact he
        | (split at he <;> exact he)

/-- One `processItem` step preserves the excluded-kind invariant. -/
lemma processItem_good (scan : Codex.FileScan) (item : PyObj)
    (hscan : ∀ e ∈ scan.entries, e.kind ≠ "turn_context" ∧ e.kind ≠ "event:user_message"
      ∧ e.kind ≠ "event:agent_message" ∧ e.kind ≠ "event:token_count") :
    ∀ e ∈ (Codex.processItem scan item).entries,
      e.kind ≠ "turn_context" ∧ e.kind ≠ "event:user_message"
        ∧ e.kind ≠ "event:agent_message" ∧ e.kind ≠ "event:token_count" := by
  intro e he
  rcases processItem_entry_cases scan item e he with h | h | h | ⟨h, htc, ham, hum⟩ | h
  · exact hscan e h
  · rw [session_meta_kind item e h]
    refine ⟨?_, ?_, ?_, ?_⟩ <;> decide
  · rcases response_item_kind item e h with h' | h' | h' | h' | h' <;> rw [h'] <;>
      refine ⟨?_, ?_, ?_, ?_⟩ <;> decide
  · rw [event_msg_kind item e h]
    exact ⟨event_prefix_ne_turn _,
      event_kind_ne _ "user_message" hum 'u' rfl (by decide) (by decide) (by decide)
        (by decide) (by decide) (by decide) (by decide),
      event_kind_ne _ "agent_message" ham 'a' rfl (by decide) (by decide) (by decide)
        (by decide) (by decide) (by decide) (by decide),
      event_kind_ne _ "token_count" htc 't' rfl (by decide) (by decide) (by decide)
        (by decide) (by decide) (by decide) (by decide)⟩
  · rw [compacted_kind item e h]
    refine ⟨?_, ?_, ?_, ?_⟩ <;> decide

/-- Every entry a parsed file yields avoids the excluded kinds. -/
lemma processFile_good (file : List PyObj) :
    ∀ e ∈ (Codex.processFile file).entries,
      e.kind ≠ "turn_context" ∧ e.kind ≠ "event:user_message"
        ∧ e.kind ≠ "event:agent_message" ∧ e.kind ≠ "event:token_count" := by
  unfold Codex.processFile
  suffices h : ∀ scan0 : Codex.FileScan,
      (∀ e ∈ scan0.entries, e.kind ≠ "turn_context" ∧ e.kind ≠ "event:user_message"
        ∧ e.kind ≠ "event:agent_message" ∧ e.kind ≠ "event:token_count") →
      ∀ e ∈ (file.foldl Codex.processItem scan0).entries,
        e.kind ≠ "turn_context" ∧ e.kind ≠ "event:user_message"
          ∧ e.kind ≠ "event:agent_message" ∧ e.kind ≠ "event:token_count" by
    exact h ⟨[], .null⟩ (by simp)
  induction file with
  | nil => intro scan0 h0; simpa using h0
  | cons item rest ih =>
      intro scan0 h0
      rw [List.foldl_cons]
      exact ih (Codex.processItem scan0 item) (processItem_good scan0 item h0)

/-- The candidate loop only returns contexts whose entries avoid the
excluded kinds (given the carried fallback does). -/
lemma codex_go_good (sid : String) (cs : List (List PyObj)) :
    ∀ fb : Option SessionContext,
      (∀ c, fb = some c → ∀ e ∈ c.entries,
        e.kind ≠ "turn_context" ∧ e.kind ≠ "event:user_message"
          ∧ e.kind ≠ "event:agent_message" ∧ e.kind ≠ "event:token_count") →
      ∀ ctx w, Codex.loadContextGo sid cs fb = .ok (ctx, w) →
        ∀ e ∈ ctx.entries,
          e.kind ≠ "turn_context" ∧ e.kind ≠ "event:user_message"
            ∧ e.kind ≠ "event:agent_message" ∧ e.kind ≠ "event:token_count" := by
  induction cs with
  | nil =>
      intro fb hfb ctx w h
      unfold Codex.loadContextGo at h
      cases fb with
      | none => simp at h
      | some c =>
          simp only [Except.ok.injEq, Prod.mk.injEq] at h
          obtain ⟨hc, -⟩ := h
          exact hc ▸ hfb c rfl
  | cons f rest ih =>
      intro fb hfb ctx w h
      unfold Codex.loadContextGo at h
      dsimp only at h
      by_cases hemp : (Codex.processFile f).entries.isEmpty
      · rw [if_pos hemp] at h
        exact ih fb hfb ctx w h
      · rw [if_neg hemp] at h
        by_cases hmatch : jeqStr (Codex.processFile f).discovered sid = true
        · rw [if_pos hmatch] at h
          simp only [Except.ok.injEq, Prod.mk.injEq] at h
          obtain ⟨hc, -⟩ := h
          exact hc ▸ processFile_good f
        · rw [if_neg hmatch] at h
          apply ih _ _ ctx w h
          intro c hc
          cases fb with
          | some c0 =>
              simp only [Option.some_orElse, Option.some.injEq] at hc
              exact hc ▸ hfb c0 rfl
          | none =>
              simp only [Option.none_orElse, Option.some.injEq] at hc
              exact hc ▸ processFile_good f

/-- **C6.** A line-format context never contains a `turn_context` entry nor
one of the noise-filtered kinds `event:user_message` / `event:agent_message`
/ `event:token_count`; an `event_msg` record with any other discriminant
(e.g. `agent_reasoning` with text `**Hidden thoughts**`) yields one entry
with kind `event:<discriminant>` and that exact text. -/
theorem C6_codex_kind_filtering :
    (∀ (sid : String) (cs : List (List PyObj)) (ctx : SessionContext) (w : Bool),
      Codex.load_context sid cs = .ok (ctx, w) →
      ∀ e ∈ ctx.entries,
        e.kind ≠ "turn_context" ∧ e.kind ≠ "event:user_message"
          ∧ e.kind ≠ "event:agent_message" ∧ e.kind ≠ "event:token_count") ∧
    (∃ e, Codex.entry_from_event_msg
        [("type", .str "event_msg"),
         ("payload", .obj [("type", .str "agent_reasoning"),
                           ("text", .str "**Hidden thoughts**")])]
        = some e ∧ e.kind = "event:agent_reasoning" ∧ e.text = "**Hidden thoughts**") := by
  constructor
  · intro sid cs ctx w h
    unfold Codex.load_context at h
    by_cases hs : (sid == "") = true
    · rw [if_pos hs] at h
      simp at h
    · rw [if_neg hs] at h
      exact codex_go_good sid cs none (by intro c hc; cases hc) ctx w h
  · exact ⟨{ timestamp := none, kind := "event:agent_reasoning"
             text := "**Hidden thoughts**", role := .null
             metadata := [("type", .str "agent_reasoning"),
                          ("text", .str "**Hidden thoughts**")] }, rfl, rfl, rfl⟩

/-- Witness for C6: a log holding a `turn_context` record, a noise
`user_message` event and an `agent_reasoning` event loads successfully, and
the surviving reasoning entry's kind avoids every excluded kind. -/
theorem C6_codex_kind_filtering_witness :
    ({ timestamp := none, kind := "event:agent_reasoning"
       text := "**Hidden thoughts**", role := JVal.null
       metadata := [("type", .str "agent_reasoning"),
                    ("text", .str "**Hidden thoughts**")] } : HistoryEntry).kind
        ≠ "turn_context" ∧
    ({ timestamp := none, kind := "event:agent_reasoning"
       text := "**Hidden thoughts**", role := JVal.null
       metadata := [("type", .str "agent_reasoning"),
                    ("text", .str "**Hidden thoughts**")] } : HistoryEntry).kind
        ≠ "event:user_message" ∧
    ({ timestamp := none, kind := "event:agent_reasoning"
       text := "**Hidden thoughts**", role := JVal.null
       metadata := [("type", .str "agent_reasoning"),
                    ("text", .str "**Hidden thoughts**")] } : HistoryEntry).kind
        ≠ "event:agent_message" ∧
    ({ timestamp := none, kind := "event:agent_reasoning"
       text := "**Hidden thoughts**", role := JVal.null
       metadata := [("type", .str "agent_reasoning"),
                    ("text", .str "**Hidden thoughts**")] } : HistoryEntry).kind
        ≠ "event:token_count" :=
  C6_codex_kind_filtering.1 "s6"
    [[[("type", .str "turn_context")],
      [("type", .str "session_meta"),
       ("payload", .obj [("id", .str "s6"), ("instructions", .str "i")])],
      [("type", .str "event_msg"),
       ("payload", .obj [("type", .str "user_message"), ("message", .str "u")])],
      [("type", .str "event_msg"),
       ("payload", .obj [("type", .str "agent_reasoning"),
                         ("text", .str "**Hidden thoughts**")])]]]
    { session_id := "s6"
      entries := [{ timestamp := none, kind := "session_meta", text := "i"
                    role := .str "system"
                    metadata := [("id", .str "s6"), ("instructions", .str "i")] },
                  { timestamp := none, kind := "event:agent_reasoning"
                    text := "**Hidden thoughts**", role := JVal.null
                    metadata := [("type", .str "agent_reasoning"),
                                 ("text", .str "**Hidden thoughts**")] }] }
    false rfl _ (List.mem_cons_of_mem _ (List.mem_cons_self _ _))

end StickyNoteMCP
